import Mathlib

/-!
Shallow embedding of the quantitative model layer of
`Agentic-Thought-Leadership/emergence-calculator` (`src/src/App.jsx`):
edge-count functions per topology, the risk formulas, the series generator,
the CSV serializer, the scenario lists and the share-URL codec, together with
theorems settling the specification claims about them.

Conventions used throughout the embedding:
* JS numbers on the code paths modelled here are integers or exact decimal
  fractions far below 2^53, so they are embedded as `ℤ` / `ℚ`; a JS `null`,
  `undefined` or non-finite number (`NaN`, `Infinity`) is `none : Option ℚ`.
* JS objects holding scenario columns are association lists with
  last-write-wins lookup, mirroring key assignment order.
-/

/-- `clamp(n, min, max)` from App.jsx: `Math.max(min, Math.min(max, n))`. -/
def jsClamp (x lo hi : ℤ) : ℤ := max lo (min hi x)

/-- Accumulate the leading decimal digits of a character list, stopping at the
first non-digit, as `Number.parseInt` does after the sign. -/
def parseIntDigits : List Char → ℕ → ℕ
  | [], acc => acc
  | c :: cs, acc =>
    if c.isDigit then parseIntDigits cs (acc * 10 + (c.toNat - '0'.toNat)) else acc

/-- Whether the character list begins with a decimal digit (so `parseInt`
yields a number rather than `NaN`). -/
def leadsWithDigit : List Char → Bool
  | [] => false
  | c :: _ => c.isDigit

/-- `Number.parseInt(s, 10)`: optional leading minus sign, then the longest
digit prefix; `none` models the `NaN` result when no digit is found. -/
def parseIntStr (s : String) : Option ℤ :=
  match s.toList with
  | '-' :: rest =>
    if leadsWithDigit rest then some (-(parseIntDigits rest 0 : ℤ)) else none
  | l => if leadsWithDigit l then some ((parseIntDigits l 0 : ℤ)) else none

/-- `safeInt(v, fallback)` from App.jsx: parse as a base-10 integer, falling
back when the parse yields `NaN`. -/
def safeInt (v : String) (fallback : ℤ) : ℤ := (parseIntStr v).getD fallback

/-- The `value` fields of the `TOPOLOGIES` array in App.jsx, in order. -/
def TOPOLOGY_VALUES : List String := ["bounded", "mesh", "hub", "pipeline"]

/-- `TOPOLOGIES.some((t) => t.value === x)` from App.jsx. -/
def isTopologyValue (x : String) : Bool := TOPOLOGY_VALUES.contains x

/-- The index list traversed by `for (let i = 2; i <= n; i += 1)`: the
integers 2..n (empty when n ≤ 1). -/
def loopRange (n : ℕ) : List ℕ := List.range' 2 (n - 1)

/-- `edgesBoundedK(n, k)` from App.jsx: starting from 0, each loop step adds
`Math.min(k, i - 1)` for i = 2..n. -/
def edgesBoundedK (n : ℕ) (k : ℤ) : ℤ :=
  (loopRange n).foldl (fun (edges : ℤ) (i : ℕ) => edges + min k ((i : ℤ) - 1)) 0

/-- `edgesFullMesh(n)` from App.jsx: `(n * (n - 1)) / 2` under JS (exact
rational) division. -/
def edgesFullMesh (n : ℕ) : ℚ := ((n : ℚ) * ((n : ℚ) - 1)) / 2

/-- `edgesHubAndSpoke(n, k)` from App.jsx: 0 when `k <= 0`; otherwise each
loop step for i = 2..n adds `1 + Math.min(Math.max(0, k - 1), i - 2)`. -/
def edgesHubAndSpoke (n : ℕ) (k : ℤ) : ℤ :=
  if k ≤ 0 then 0
  else (loopRange n).foldl
    (fun (edges : ℤ) (i : ℕ) => edges + (1 + min (max 0 (k - 1)) ((i : ℤ) - 2))) 0

/-- `edgesPipeline(n, k)` from App.jsx: 0 when `k <= 0`, else
`Math.max(0, n - 1)`. -/
def edgesPipeline (n : ℕ) (k : ℤ) : ℤ :=
  if k ≤ 0 then 0 else max 0 ((n : ℤ) - 1)

/-- `computeEdges(n, k, topology)` from App.jsx: the `switch` on the topology
string, defaulting to the bounded-degree rule. -/
def computeEdges (n : ℕ) (k : ℤ) (topology : String) : ℚ :=
  if topology = "mesh" then edgesFullMesh n
  else if topology = "hub" then (edgesHubAndSpoke n k : ℚ)
  else if topology = "pipeline" then (edgesPipeline n k : ℚ)
  else (edgesBoundedK n k : ℚ)

/-- `riskLinear(n, r0)` from App.jsx. -/
def riskLinear (n : ℕ) (r0 : ℚ) : ℚ := (n : ℚ) * r0

/-- JS division for the one division site of the risk formula: `none` models
the non-finite result (`NaN` or `±Infinity`) produced when the divisor is 0. -/
def jsDivQ (x y : ℚ) : Option ℚ := if y = 0 then none else some (x / y)

/-- The fixed model constants destructured by `riskAgentsEdges`. -/
structure ModelConsts where
  r0 : ℚ
  loadL : ℚ
  alpha : ℚ
  gamma : ℚ
deriving Repr, DecidableEq

/-- `DEFAULTS` from App.jsx: r0 = 1, loadL = 1.3, alpha = 0.3, gamma = 0.12. -/
def DEFAULTS : ModelConsts := ⟨1, 13 / 10, 3 / 10, 12 / 100⟩

/-- `riskAgentsEdges({n, k, topology, autonomyScore, r0, loadL, alpha, gamma})`
from App.jsx: `n * r0 + alpha * coupling + gamma * (coupling * coupling) / n`
with `coupling = E * loadL * A`. A `NaN` arising from the division when n = 0
propagates through the sum, so the whole result is `none` in that case. -/
def riskAgentsEdges (n : ℕ) (k : ℤ) (topology : String) (autonomyScore : ℚ)
    (c : ModelConsts) : Option ℚ :=
  let E := computeEdges n k topology
  let A := autonomyScore
  let coupling := E * c.loadL * A
  (jsDivQ (c.gamma * (coupling * coupling)) (n : ℚ)).map
    (fun cascade => (n : ℚ) * c.r0 + c.alpha * coupling + cascade)

/-- Exception-channel view of `riskAgentsEdges`: the source body contains no
`throw` and no guard, so evaluation always returns normally with the
(possibly non-finite) value; the error channel is never used. -/
def riskAgentsEdgesRun (n : ℕ) (k : ℤ) (topology : String) (autonomyScore : ℚ)
    (c : ModelConsts) : Except String (Option ℚ) :=
  Except.ok (riskAgentsEdges n k topology autonomyScore c)

/-- JS `Math.round(x)`: the integer nearest to x, halves rounding toward
positive infinity, i.e. `⌊x + 1/2⌋`. -/
def jsRound (q : ℚ) : ℤ := ⌊q + 1 / 2⌋

/-- Insert a thousands separator after every three characters of a reversed
digit string (helper for the locale formatting below). -/
def groupRevDigits : List Char → List Char
  | [] => []
  | [a] => [a]
  | [a, b] => [a, b]
  | [a, b, c] => [a, b, c]
  | a :: b :: c :: rest => a :: b :: c :: ',' :: groupRevDigits rest

/-- Modelled from the spec: `Number.prototype.toLocaleString()` (a JS builtin,
not repository code) rendered with en-US digit grouping. -/
def toLocaleStringInt (n : ℤ) : String :=
  if n < 0 then "-" ++ ⟨(groupRevDigits (toString (-n)).toList.reverse).reverse⟩
  else ⟨(groupRevDigits (toString n).toList.reverse).reverse⟩

/-- `formatMultiple(m)` from App.jsx. -/
def formatMultiple (m : ℚ) : String := toLocaleStringInt (jsRound m) ++ "x"

/-- A scenario record as held in the compare and saved lists (and, with the
same field set, as serialized by `scenarioToQuery`). -/
structure Scenario where
  id : String
  name : String
  n : ℤ
  autonomy : ℤ
  k : ℤ
  topology : String
deriving Repr, DecidableEq

/-- `scenarioToQuery(s)` from App.jsx: a fresh record with exactly the fields
id, name, n, autonomy, k, topology. -/
def scenarioToQuery (s : Scenario) : Scenario :=
  ⟨s.id, s.name, s.n, s.autonomy, s.k, s.topology⟩

/-- The query parameters carried by the share URL. `URLSearchParams` assembly,
percent-encoding and the base64/JSON transport of the `sc` payload are browser
primitives (a reversible transport layer per the spec), so `sc` is carried as
the decoded JSON-array shape; `none` means the parameter is absent. -/
structure ShareParams where
  nParam : String
  aParam : String
  kParam : String
  tParam : String
  scParam : Option (List Scenario)
deriving Repr, DecidableEq

/-- `buildShareUrl({n, autonomy, k, topology, scenarios})` from App.jsx,
modelled as the query-parameter map it writes: `n`, `a`, `k` via `String(·)`,
`t` as the topology string, and `sc` only when the scenario list is
non-empty. -/
def buildShareUrl (n autonomy k : ℤ) (topology : String)
    (scenarios : List Scenario) : ShareParams :=
  ⟨toString n, toString autonomy, toString k, topology,
    if scenarios.length ≠ 0 then some (scenarios.map scenarioToQuery) else none⟩

/-- The state returned by `readInitialStateFromUrl`. -/
structure InitialState where
  n : ℤ
  autonomy : ℤ
  k : ℤ
  topology : String
  scenarios : List Scenario
deriving Repr, DecidableEq

/-- JS `a || b` on strings: the empty string is falsy, every other string is
truthy. -/
def jsStrOr (s fallback : String) : String := if s = "" then fallback else s

/-- The per-entry map applied to the parsed `sc` payload in
`readInitialStateFromUrl`: falsy (empty) id and name fall back to a fresh
`stableId()` draw and "Scenario", the numeric fields go through
`String(·)`/`parseInt` and clamping, and an unknown topology falls back to
"bounded". -/
def decodeScenario (fresh : ℕ → String) (i : ℕ) (x : Scenario) : Scenario :=
  ⟨jsStrOr x.id (fresh i), jsStrOr x.name "Scenario",
    jsClamp (safeInt (toString x.n) 30) 1 200,
    jsClamp (safeInt (toString x.autonomy) 5) 1 10,
    jsClamp (safeInt (toString x.k) 3) 0 199,
    if isTopologyValue x.topology then x.topology else "bounded"⟩

/-- The final pass of `readInitialStateFromUrl` over the decoded scenarios:
`{...s, k: clamp(s.k, 0, s.n - 1)}`. -/
def reclampScenario (s : Scenario) : Scenario :=
  ⟨s.id, s.name, s.n, s.autonomy, jsClamp s.k 0 (s.n - 1), s.topology⟩

/-- `readInitialStateFromUrl()` from App.jsx. `fresh i` supplies the value of
the i-th call to `stableId()` (wall clock and randomness, passed in
explicitly). A missing query parameter reads as the empty string, which
`safeInt` maps to the fallback just as `parseInt(null)` yields `NaN`. -/
def readInitialStateFromUrl (p : ShareParams) (fresh : ℕ → String) :
    InitialState :=
  let n := jsClamp (safeInt p.nParam 30) 1 200
  let autonomy := jsClamp (safeInt p.aParam 5) 1 10
  let k := jsClamp (safeInt p.kParam 3) 0 (n - 1)
  let topologyRaw := jsStrOr p.tParam "bounded"
  let topology := if isTopologyValue topologyRaw then topologyRaw else "bounded"
  let scenarios : List Scenario :=
    (p.scParam.map (fun parsed => (parsed.mapIdx (decodeScenario fresh)).take 8)).getD []
  ⟨n, autonomy, k, topology, scenarios.map reclampScenario⟩

/-- The chart data key of a compare scenario: `` `s_${s.id}` ``. -/
def scenarioKey (s : Scenario) : String := "s_" ++ s.id

/-- Last-write-wins association lookup: models both `Map.set` insertion order
and JS object key assignment, where a later duplicate key overwrites an
earlier one; an absent key reads as `none`. -/
def lookupLast {α : Type} : List (String × α) → String → Option α
  | [], _ => none
  | p :: rest, key =>
    match lookupLast rest key with
    | some v => some v
    | none => if p.1 = key then some p.2 else none

/-- The `scenarioByKey` map of `chartRows`, built by iterating `Map.set` over
the scenario list. -/
def scenarioByKey (scenarios : List Scenario) (key : String) : Option Scenario :=
  lookupLast (scenarios.map (fun s => (scenarioKey s, s))) key

/-- `scenarioLineKeys` from App.jsx. -/
def scenarioLineKeys (scenarios : List Scenario) : List String :=
  scenarios.map scenarioKey

/-- One row of the generated series: `agents` index, always-present baseline,
optional current value and the scenario columns in key-assignment order. -/
structure ChartRow where
  agents : ℕ
  baseline : ℚ
  current : Option ℚ
  cols : List (String × Option ℚ)
deriving Repr, DecidableEq

/-- `maxN` from App.jsx: `Math.max(safeN, scenarios.reduce(max of s.n, 0), 1)`. -/
def maxN (safeN : ℤ) (scenarios : List Scenario) : ℤ :=
  let scenarioMax := scenarios.foldl (fun m s => max m s.n) 0
  max (max safeN scenarioMax) 1

/-- The value written to `row[key]` inside the `chartRows` loop: the
looked-up scenario's connected value only while `i <= s.n`, evaluated with
that scenario's k re-clamped to `[0, s.n - 1]`, else `null`. -/
def chartRowColValue (scenarios : List Scenario) (i : ℕ) (key : String) :
    Option ℚ :=
  match scenarioByKey scenarios key with
  | some s =>
    if (i : ℤ) ≤ s.n then
      riskAgentsEdges i (jsClamp s.k 0 (s.n - 1)) s.topology
        (s.autonomy : ℚ) DEFAULTS
    else none
  | none => none

/-- The body of the `chartRows` loop at index i: baseline unconditionally,
`current` only while `i <= safeN`, and one column assignment per line key. -/
def chartRow (safeN safeK : ℤ) (safeTopology : String) (safeAutonomy : ℤ)
    (scenarios : List Scenario) (i : ℕ) : ChartRow :=
  let baseline := riskLinear i DEFAULTS.r0
  let current :=
    if (i : ℤ) ≤ safeN then
      riskAgentsEdges i safeK safeTopology (safeAutonomy : ℚ) DEFAULTS
    else none
  let cols := (scenarioLineKeys scenarios).map (fun key =>
    (key, chartRowColValue scenarios i key))
  ⟨i, baseline, current, cols⟩

/-- `chartRows` from App.jsx: one row per agent count i = 1..maxN. -/
def chartRows (safeN safeK : ℤ) (safeTopology : String) (safeAutonomy : ℤ)
    (scenarios : List Scenario) : List ChartRow :=
  (List.range' 1 (maxN safeN scenarios).toNat).map
    (chartRow safeN safeK safeTopology safeAutonomy scenarios)

/-- A CSV field before the final string join: either a literal string (the
header names and the empty field `""`) or a number. -/
inductive Cell where
  | str (s : String)
  | num (q : ℚ)
deriving Repr, DecidableEq

/-- The header line of `buildCsv`. -/
def csvHeader (scenarioKeys : List String) : List Cell :=
  (["agents", "baseline_linear", "current_connected", "current_multiple"]
    ++ scenarioKeys.flatMap (fun sk => [sk ++ "_connected", sk ++ "_multiple"]))
    |>.map Cell.str

/-- The two cells pushed per scenario key in a `buildCsv` data row: both empty
when the stored value is `null`/absent (a non-finite number cannot occur in
the generated rows), else the value and, when the baseline is positive, the
multiple. -/
def scenarioPairCells (baseline : ℚ) (v : Option ℚ) : List Cell :=
  match v with
  | none => [Cell.str "", Cell.str ""]
  | some v =>
    [Cell.num v, if baseline > 0 then Cell.num (v / baseline) else Cell.str ""]

/-- One data row of `buildCsv`: agents, baseline, current (or empty), the
current multiple guarded by `baseline > 0 && current != null`, then the
per-scenario pairs. -/
def csvDataRow (scenarioKeys : List String) (r : ChartRow) : List Cell :=
  let baseline := r.baseline
  let currentCell : Cell :=
    match r.current with
    | some c => Cell.num c
    | none => Cell.str ""
  let currentMultipleCell : Cell :=
    match r.current with
    | some c => if baseline > 0 then Cell.num (c / baseline) else Cell.str ""
    | none => Cell.str ""
  [Cell.num (r.agents : ℚ), Cell.num baseline, currentCell, currentMultipleCell]
    ++ scenarioKeys.flatMap (fun sk =>
      scenarioPairCells baseline (Option.join (lookupLast r.cols sk)))

/-- `NL = String.fromCharCode(13, 10)` from App.jsx. -/
def NL : String := ⟨[Char.ofNat 13, Char.ofNat 10]⟩

/-- `buildCsv({rows, scenarioKeys})` from App.jsx, modelled up to the final
`lines.join(NL)`: the header line followed by one data line per row, each
line the list of cells that `cols.join(",")` would render (JS number display
formatting is not modelled). -/
def buildCsv (rows : List ChartRow) (scenarioKeys : List String) :
    List (List Cell) :=
  csvHeader scenarioKeys :: rows.map (csvDataRow scenarioKeys)

/-- `addScenario()` from App.jsx: append a scenario named from the previous
length, made from the current safe values, then `.slice(0, 8)`. `fresh` is
the `stableId()` draw. -/
def addScenario (prev : List Scenario) (fresh : String)
    (safeN safeAutonomy safeK : ℤ) (safeTopology : String) : List Scenario :=
  (prev ++ [(⟨fresh, "Scenario " ++ toString (prev.length + 1), safeN,
    safeAutonomy, safeK, safeTopology⟩ : Scenario)]).take 8

/-- `saveScenario(s)` from App.jsx: prepend a fresh-id copy of the scenario's
values, then `.slice(0, 20)`. -/
def saveScenario (savedScenarios : List Scenario) (fresh : String)
    (s : Scenario) : List Scenario :=
  (⟨fresh, jsStrOr s.name "Saved", s.n, s.autonomy, s.k, s.topology⟩
    :: savedScenarios).take 20

/-! ### Helper lemmas about the edge model -/

lemma jsClamp_eq_self {x lo hi : ℤ} (h1 : lo ≤ x) (h2 : x ≤ hi) :
    jsClamp x lo hi = x := by
  simp only [jsClamp]
  omega

lemma loopRange_succ {n : ℕ} (h : 1 ≤ n) :
    loopRange (n + 1) = loopRange n ++ [n + 1] := by
  obtain ⟨m, rfl⟩ : ∃ m, n = m + 1 := ⟨n - 1, by omega⟩
  show List.range' 2 (m + 1) = List.range' 2 m ++ [m + 1 + 1]
  have h2 : 2 + 1 * m = m + 1 + 1 := by omega
  rw [List.range'_concat, h2]

lemma edgesBoundedK_succ {n : ℕ} (h : 1 ≤ n) (k : ℤ) :
    edgesBoundedK (n + 1) k = edgesBoundedK n k + min k (n : ℤ) := by
  unfold edgesBoundedK
  rw [loopRange_succ h, List.foldl_append]
  simp only [List.foldl_cons, List.foldl_nil]
  congr 1
  push_cast
  omega

lemma edgesBoundedK_eq_sum (n : ℕ) (k : ℤ) :
    edgesBoundedK n k = ∑ i ∈ Finset.Icc 2 n, min k ((i : ℤ) - 1) := by
  induction n with
  | zero => simp [edgesBoundedK, loopRange]
  | succ m ih =>
    rcases Nat.eq_zero_or_pos m with hm | hm
    · subst hm
      simp [edgesBoundedK, loopRange]
    · rw [edgesBoundedK_succ hm, ih, Finset.sum_Icc_succ_top (by omega)]
      congr 1
      push_cast
      ring_nf

lemma edgesHubAndSpoke_succ {n : ℕ} (h : 1 ≤ n) {k : ℤ} (hk : 0 < k) :
    edgesHubAndSpoke (n + 1) k
      = edgesHubAndSpoke n k + (1 + min (max 0 (k - 1)) ((n : ℤ) - 1)) := by
  unfold edgesHubAndSpoke
  rw [if_neg (by omega), if_neg (by omega), loopRange_succ h, List.foldl_append]
  simp only [List.foldl_cons, List.foldl_nil]
  congr 2
  push_cast
  omega

lemma edgesHubAndSpoke_eq_sum (n : ℕ) {k : ℤ} (hk : 0 < k) :
    edgesHubAndSpoke n k
      = ∑ i ∈ Finset.Icc 2 n, (1 + min (max 0 (k - 1)) ((i : ℤ) - 2)) := by
  induction n with
  | zero => simp [edgesHubAndSpoke, loopRange, if_neg (by omega : ¬ k ≤ 0)]
  | succ m ih =>
    rcases Nat.eq_zero_or_pos m with hm | hm
    · subst hm
      simp [edgesHubAndSpoke, loopRange, if_neg (by omega : ¬ k ≤ 0)]
    · rw [edgesHubAndSpoke_succ hm hk, ih, Finset.sum_Icc_succ_top (by omega)]
      congr 2
      push_cast
      ring_nf

lemma edgesBoundedK_nonneg (n : ℕ) {k : ℤ} (hk : 0 ≤ k) :
    0 ≤ edgesBoundedK n k := by
  rw [edgesBoundedK_eq_sum]
  apply Finset.sum_nonneg
  intro i hi
  simp only [Finset.mem_Icc] at hi
  exact le_min hk (by omega)

lemma edgesFullMesh_nonneg (n : ℕ) : 0 ≤ edgesFullMesh n := by
  unfold edgesFullMesh
  rcases Nat.eq_zero_or_pos n with h | h
  · subst h
    norm_num
  · have h1 : (1 : ℚ) ≤ (n : ℚ) := by exact_mod_cast h
    have h2 : (0 : ℚ) ≤ (n : ℚ) - 1 := by linarith
    positivity

lemma edgesHubAndSpoke_nonneg (n : ℕ) (k : ℤ) : 0 ≤ edgesHubAndSpoke n k := by
  rcases le_or_lt k 0 with hk | hk
  · simp [edgesHubAndSpoke, hk]
  · rw [edgesHubAndSpoke_eq_sum n hk]
    apply Finset.sum_nonneg
    intro i hi
    simp only [Finset.mem_Icc] at hi
    have h0 : (0 : ℤ) ≤ max 0 (k - 1) := le_max_left 0 _
    have h2 : (0 : ℤ) ≤ (i : ℤ) - 2 := by omega
    have := le_min h0 h2
    omega

lemma edgesPipeline_nonneg (n : ℕ) (k : ℤ) : 0 ≤ edgesPipeline n k := by
  unfold edgesPipeline
  split
  · exact le_refl 0
  · exact le_max_left 0 _

lemma computeEdges_nonneg (n : ℕ) {k : ℤ} (hk : 0 ≤ k) (t : String) :
    0 ≤ computeEdges n k t := by
  unfold computeEdges
  split
  · exact edgesFullMesh_nonneg n
  · split
    · exact_mod_cast edgesHubAndSpoke_nonneg n k
    · split
      · exact_mod_cast edgesPipeline_nonneg n k
      · exact_mod_cast edgesBoundedK_nonneg n hk

lemma riskAgentsEdges_eq_of_pos {n : ℕ} (hn : 1 ≤ n) (k : ℤ) (t : String)
    (A : ℚ) (c : ModelConsts) :
    riskAgentsEdges n k t A c
      = some ((n : ℚ) * c.r0 + c.alpha * (computeEdges n k t * c.loadL * A)
        + c.gamma * ((computeEdges n k t * c.loadL * A)
          * (computeEdges n k t * c.loadL * A)) / (n : ℚ)) := by
  have hne : ((n : ℚ)) ≠ 0 := Nat.cast_ne_zero.mpr (by omega)
  simp [riskAgentsEdges, jsDivQ, hne]


lemma computeEdges_bounded (n : ℕ) (k : ℤ) :
    computeEdges n k "bounded" = ((edgesBoundedK n k : ℤ) : ℚ) := rfl

lemma computeEdges_mesh (n : ℕ) (k : ℤ) :
    computeEdges n k "mesh" = edgesFullMesh n := rfl

lemma computeEdges_hub (n : ℕ) (k : ℤ) :
    computeEdges n k "hub" = ((edgesHubAndSpoke n k : ℤ) : ℚ) := rfl

lemma computeEdges_pipeline (n : ℕ) (k : ℤ) :
    computeEdges n k "pipeline" = ((edgesPipeline n k : ℤ) : ℚ) := rfl

/-! ### Claim theorems: the edge model and the risk formula -/

/-- C1: for every configuration with integer n ≥ 1, the risk layer returns
`linear = n * r0` and `connected = n*r0 + alpha*(E*L*A) + gamma*(E*L*A)^2 / n`
with the fixed constants r0 = 1, L = 1.3, alpha = 0.3, gamma = 0.12, where E
is the (non-negative) edge count derived from the topology. -/
theorem risk_formula_shape (n : ℕ) (hn : 1 ≤ n) (k : ℤ) (t : String) (A : ℚ) :
    riskLinear n DEFAULTS.r0 = (n : ℚ) * 1
    ∧ riskAgentsEdges n k t A DEFAULTS
      = some ((n : ℚ) * 1 + (3 / 10) * (computeEdges n k t * (13 / 10) * A)
        + (12 / 100) * (computeEdges n k t * (13 / 10) * A) ^ 2 / (n : ℚ)) := by
  constructor
  · simp [riskLinear, DEFAULTS]
  · rw [riskAgentsEdges_eq_of_pos hn]
    show some _ = some _
    congr 1
    simp only [DEFAULTS]
    ring

/-- Witness for `risk_formula_shape` at n = 3, k = 1, bounded topology,
autonomy 2. -/
theorem risk_formula_shape_witness :
    1 ≤ 3
    ∧ (riskLinear 3 DEFAULTS.r0 = (3 : ℚ) * 1
      ∧ riskAgentsEdges 3 1 "bounded" 2 DEFAULTS
        = some ((3 : ℚ) * 1 + (3 / 10) * (computeEdges 3 1 "bounded" * (13 / 10) * 2)
          + (12 / 100) * (computeEdges 3 1 "bounded" * (13 / 10) * 2) ^ 2 / (3 : ℚ))) :=
  ⟨by norm_num, risk_formula_shape 3 (by norm_num) 1 "bounded" 2⟩

/-- C3: for n ≥ 1 and k ≥ 0, the bounded-degree edge count is the sum over
i = 2..n of min(k, i−1) (0 at k = 0), and the full-mesh edge count is
n(n−1)/2 for every k. -/
theorem bounded_and_mesh_edge_counts (n : ℕ) (hn : 1 ≤ n) (k : ℤ) (hk : 0 ≤ k) :
    computeEdges n k "bounded" = ((∑ i ∈ Finset.Icc 2 n, min k ((i : ℤ) - 1) : ℤ) : ℚ)
    ∧ computeEdges n 0 "bounded" = 0
    ∧ ∀ k' : ℤ, computeEdges n k' "mesh" = (n : ℚ) * ((n : ℚ) - 1) / 2 := by
  refine ⟨?_, ?_, ?_⟩
  · rw [computeEdges_bounded, edgesBoundedK_eq_sum]
  · rw [computeEdges_bounded, edgesBoundedK_eq_sum]
    have hz : ∑ i ∈ Finset.Icc 2 n, min (0 : ℤ) ((i : ℤ) - 1) = 0 := by
      apply Finset.sum_eq_zero
      intro i hi
      simp only [Finset.mem_Icc] at hi
      omega
    rw [hz]
    norm_num
  · intro k'
    rw [computeEdges_mesh]
    simp [edgesFullMesh]

/-- Witness for `bounded_and_mesh_edge_counts` at n = 30, k = 3. -/
theorem bounded_and_mesh_edge_counts_witness :
    (1 ≤ 30 ∧ (0 : ℤ) ≤ 3)
    ∧ (computeEdges 30 3 "bounded"
        = ((∑ i ∈ Finset.Icc 2 30, min 3 ((i : ℤ) - 1) : ℤ) : ℚ)
      ∧ computeEdges 30 0 "bounded" = 0
      ∧ ∀ k' : ℤ, computeEdges 30 k' "mesh" = (30 : ℚ) * ((30 : ℚ) - 1) / 2) :=
  ⟨⟨by norm_num, by norm_num⟩, bounded_and_mesh_edge_counts 30 (by norm_num) 3 (by norm_num)⟩

/-- C4: for n ≥ 1, the hub-and-spoke edge count is 0 when k ≤ 0 and otherwise
the sum over i = 2..n of 1 + min(max(0, k−1), i−2); the pipeline edge count is
n−1 when k > 0 and 0 when k ≤ 0, with no further dependence on k. -/
theorem hub_and_pipeline_edge_counts (n : ℕ) (hn : 1 ≤ n) (k : ℤ) :
    (k ≤ 0 → computeEdges n k "hub" = 0 ∧ computeEdges n k "pipeline" = 0)
    ∧ (0 < k → computeEdges n k "hub"
        = ((∑ i ∈ Finset.Icc 2 n, (1 + min (max 0 (k - 1)) ((i : ℤ) - 2)) : ℤ) : ℚ)
      ∧ computeEdges n k "pipeline" = (n : ℚ) - 1) := by
  constructor
  · intro hk
    constructor
    · rw [computeEdges_hub]
      simp [edgesHubAndSpoke, hk]
    · rw [computeEdges_pipeline]
      simp [edgesPipeline, hk]
  · intro hk
    constructor
    · rw [computeEdges_hub, edgesHubAndSpoke_eq_sum n hk]
    · rw [computeEdges_pipeline]
      simp only [edgesPipeline, if_neg (by omega : ¬ k ≤ 0)]
      have hmax : max 0 ((n : ℤ) - 1) = (n : ℤ) - 1 := by omega
      rw [hmax]
      push_cast
      ring

/-- Witness for `hub_and_pipeline_edge_counts` at n = 5, k = 2. -/
theorem hub_and_pipeline_edge_counts_witness :
    1 ≤ 5
    ∧ (((2 : ℤ) ≤ 0 → computeEdges 5 2 "hub" = 0 ∧ computeEdges 5 2 "pipeline" = 0)
      ∧ ((0 : ℤ) < 2 → computeEdges 5 2 "hub"
          = ((∑ i ∈ Finset.Icc 2 5, (1 + min (max 0 (2 - 1)) ((i : ℤ) - 2)) : ℤ) : ℚ)
        ∧ computeEdges 5 2 "pipeline" = (5 : ℚ) - 1)) :=
  ⟨by norm_num, hub_and_pipeline_edge_counts 5 (by norm_num) 2⟩

/-- C5 as stated fails: at n = 30, autonomy 5, k = 3, bounded topology the
connected value is exactly 1386.264 = 173283/125 and the cascade term exactly
1192.464 = 149058/125, each at least 1/2 below the claimed ≈1386.89 and
≈1193.09; the multiple is exactly 46.2088, at least 1/50 below the claimed
≈46.23. -/
theorem concrete_scenario_values_off :
    riskAgentsEdges 30 3 "bounded" 5 DEFAULTS = some (173283 / 125)
    ∧ (138689 / 100 : ℚ) - 173283 / 125 ≥ 1 / 2
    ∧ DEFAULTS.gamma * ((computeEdges 30 3 "bounded" * DEFAULTS.loadL * 5)
        * (computeEdges 30 3 "bounded" * DEFAULTS.loadL * 5)) / 30 = 149058 / 125
    ∧ (119309 / 100 : ℚ) - 149058 / 125 ≥ 1 / 2
    ∧ (4623 / 100 : ℚ) - (173283 / 125) / 30 ≥ 1 / 50 := by
  have h84 : edgesBoundedK 30 3 = 84 := by decide
  have hE : computeEdges 30 3 "bounded" = 84 := by
    rw [computeEdges_bounded, h84]
    norm_num
  refine ⟨?_, by norm_num, ?_, by norm_num, by norm_num⟩
  · rw [riskAgentsEdges_eq_of_pos (by norm_num), hE]
    show some _ = some _
    congr 1
    norm_num [DEFAULTS]
  · rw [hE]
    norm_num [DEFAULTS]

/-- C5 amended: at n = 30, autonomy 5, k = 3, bounded topology with the fixed
constants, the edge count is 84, the coupling 546, the connected value exactly
1386.264 (cascade term exactly 1192.464), the baseline 30, the risk multiple
exactly 46.2088, and the rounded display label "46x". -/
theorem concrete_scenario_values :
    computeEdges 30 3 "bounded" = 84
    ∧ computeEdges 30 3 "bounded" * DEFAULTS.loadL * 5 = 546
    ∧ riskAgentsEdges 30 3 "bounded" 5 DEFAULTS = some (173283 / 125)
    ∧ DEFAULTS.gamma * ((computeEdges 30 3 "bounded" * DEFAULTS.loadL * 5)
        * (computeEdges 30 3 "bounded" * DEFAULTS.loadL * 5)) / 30 = 149058 / 125
    ∧ riskLinear 30 DEFAULTS.r0 = 30
    ∧ (173283 / 125 : ℚ) / 30 = 462088 / 10000
    ∧ formatMultiple ((173283 / 125 : ℚ) / 30) = "46x" := by
  have h84 : edgesBoundedK 30 3 = 84 := by decide
  have hE : computeEdges 30 3 "bounded" = 84 := by
    rw [computeEdges_bounded, h84]
    norm_num
  refine ⟨hE, ?_, ?_, ?_, ?_, by norm_num, ?_⟩
  · rw [hE]
    norm_num [DEFAULTS]
  · rw [riskAgentsEdges_eq_of_pos (by norm_num), hE]
    show some _ = some _
    congr 1
    norm_num [DEFAULTS]
  · rw [hE]
    norm_num [DEFAULTS]
  · norm_num [riskLinear, DEFAULTS]
  · norm_num [formatMultiple, jsRound]
    decide

/-- C9 as stated fails: when n = 0 reaches the risk-formula layer it does not
fail fast — there is no guard and no throw, so no InvalidConfiguration (or
any other) error is raised; the division 0/0 merely yields NaN. -/
theorem risk_layer_no_fail_fast_at_zero :
    ¬ ∃ e : String, riskAgentsEdgesRun 0 3 "bounded" 5 DEFAULTS = Except.error e := by
  rintro ⟨e, h⟩
  simp [riskAgentsEdgesRun] at h

/-- C9 amended: for input n = 0 the formula layer returns normally with a
non-finite value (NaN from the division by n) rather than raising, and for
every n ≥ 1 it returns normally with a finite value. -/
theorem risk_layer_total (n : ℕ) :
    (∀ (k : ℤ) (t : String) (A : ℚ),
      riskAgentsEdgesRun 0 k t A DEFAULTS = Except.ok none)
    ∧ (1 ≤ n → ∀ (k : ℤ) (t : String) (A : ℚ),
      ∃ q : ℚ, riskAgentsEdgesRun n k t A DEFAULTS = Except.ok (some q)) := by
  constructor
  · intro k t A
    simp [riskAgentsEdgesRun, riskAgentsEdges, jsDivQ]
  · intro hn k t A
    exact ⟨_, by rw [riskAgentsEdgesRun, riskAgentsEdges_eq_of_pos hn]⟩

/-- Witness for `risk_layer_total` at n = 1, k = 0, mesh topology. -/
theorem risk_layer_total_witness :
    ∃ q : ℚ, riskAgentsEdgesRun 1 0 "mesh" 5 DEFAULTS = Except.ok (some q) :=
  (risk_layer_total 1).2 (by norm_num) 0 "mesh" 5

/-- C10: for every clamped configuration (n in [1,200], autonomy in [1,10],
k in [0, n−1], any of the four topologies) under the fixed constants, the
connected value is defined and at least the linear baseline at the same n. -/
theorem connected_dominates_baseline (n : ℕ) (A k : ℤ) (t : String)
    (hn1 : 1 ≤ n) (hn2 : n ≤ 200) (hA1 : 1 ≤ A) (hA2 : A ≤ 10)
    (hk1 : 0 ≤ k) (hk2 : k ≤ (n : ℤ) - 1) (ht : isTopologyValue t = true) :
    ∃ v : ℚ, riskAgentsEdges n k t (A : ℚ) DEFAULTS = some v
      ∧ riskLinear n DEFAULTS.r0 ≤ v := by
  refine ⟨_, riskAgentsEdges_eq_of_pos hn1 k t (A : ℚ) DEFAULTS, ?_⟩
  have hE : 0 ≤ computeEdges n k t := computeEdges_nonneg n hk1 t
  have hA : (0 : ℚ) ≤ (A : ℚ) := by exact_mod_cast (by omega : (0 : ℤ) ≤ A)
  have hc : 0 ≤ computeEdges n k t * DEFAULTS.loadL * (A : ℚ) := by
    apply mul_nonneg (mul_nonneg hE (by norm_num [DEFAULTS])) hA
  have hnq : (0 : ℚ) < (n : ℚ) := by exact_mod_cast hn1
  have h1 : 0 ≤ DEFAULTS.alpha * (computeEdges n k t * DEFAULTS.loadL * (A : ℚ)) :=
    mul_nonneg (by norm_num [DEFAULTS]) hc
  have h2 : 0 ≤ DEFAULTS.gamma * ((computeEdges n k t * DEFAULTS.loadL * (A : ℚ))
      * (computeEdges n k t * DEFAULTS.loadL * (A : ℚ))) / (n : ℚ) :=
    div_nonneg (mul_nonneg (by norm_num [DEFAULTS]) (mul_nonneg hc hc)) hnq.le
  simp only [riskLinear]
  linarith

/-- Witness for `connected_dominates_baseline` at n = 30, autonomy 5, k = 3,
bounded topology. -/
theorem connected_dominates_baseline_witness :
    (1 ≤ 30 ∧ 30 ≤ 200 ∧ (1 : ℤ) ≤ 5 ∧ (5 : ℤ) ≤ 10 ∧ (0 : ℤ) ≤ 3
      ∧ (3 : ℤ) ≤ (30 : ℤ) - 1 ∧ isTopologyValue "bounded" = true)
    ∧ ∃ v : ℚ, riskAgentsEdges 30 3 "bounded" ((5 : ℤ) : ℚ) DEFAULTS = some v
      ∧ riskLinear 30 DEFAULTS.r0 ≤ v :=
  ⟨⟨by norm_num, by norm_num, by norm_num, by norm_num, by norm_num, by norm_num,
    by decide⟩,
    connected_dominates_baseline 30 5 3 "bounded" (by norm_num) (by norm_num)
      (by norm_num) (by norm_num) (by norm_num) (by norm_num) (by decide)⟩

/-! ### Helper lemmas about the series generator -/

lemma lookupLast_eq_none {α : Type} {l : List (String × α)} {key : String}
    (h : key ∉ l.map Prod.fst) : lookupLast l key = none := by
  induction l with
  | nil => rfl
  | cons p rest ih =>
    simp only [List.map_cons, List.mem_cons] at h
    push_neg at h
    simp only [lookupLast, ih h.2]
    simp [Ne.symm h.1]

lemma lookupLast_map_self {α : Type} (f : String → α) (keys : List String)
    (hnd : keys.Nodup) {key : String} (hmem : key ∈ keys) :
    lookupLast (keys.map (fun x => (x, f x))) key = some (f key) := by
  induction keys with
  | nil => cases hmem
  | cons a rest ih =>
    simp only [List.nodup_cons] at hnd
    rcases List.mem_cons.mp hmem with rfl | hmem2
    · have hnone : lookupLast (rest.map fun x => (x, f x)) key = none := by
        apply lookupLast_eq_none
        simpa using hnd.1
      simp [List.map_cons, lookupLast, hnone]
    · simp only [List.map_cons, lookupLast, ih hnd.2 hmem2]

lemma scenarioByKey_eq_some {scens : List Scenario}
    (hnd : (scens.map scenarioKey).Nodup) {s : Scenario} (hs : s ∈ scens) :
    scenarioByKey scens (scenarioKey s) = some s := by
  induction scens with
  | nil => cases hs
  | cons t rest ih =>
    simp only [List.map_cons, List.nodup_cons] at hnd
    rcases List.mem_cons.mp hs with rfl | hmem
    · have hnone :
          lookupLast (rest.map (fun x => (scenarioKey x, x))) (scenarioKey s) = none := by
        apply lookupLast_eq_none
        simpa [List.map_map, Function.comp] using hnd.1
      simp [scenarioByKey, List.map_cons, lookupLast, hnone]
    · have hrest := ih hnd.2 hmem
      simp only [scenarioByKey, List.map_cons, lookupLast] at hrest ⊢
      rw [hrest]

lemma riskAgentsEdges_isSome_of_pos {n : ℕ} (hn : 1 ≤ n) (k : ℤ) (t : String)
    (A : ℚ) (c : ModelConsts) : (riskAgentsEdges n k t A c).isSome = true := by
  rw [riskAgentsEdges_eq_of_pos hn]
  rfl

lemma chartRow_cols_lookup {safeN safeK : ℤ} {safeTopology : String}
    {safeAutonomy : ℤ} {scens : List Scenario}
    (hnd : (scens.map scenarioKey).Nodup) {s : Scenario} (hs : s ∈ scens)
    (i : ℕ) :
    lookupLast (chartRow safeN safeK safeTopology safeAutonomy scens i).cols
      (scenarioKey s) = some (chartRowColValue scens i (scenarioKey s)) := by
  show lookupLast ((scenarioLineKeys scens).map
    (fun key => (key, chartRowColValue scens i key))) (scenarioKey s) = _
  exact lookupLast_map_self _ _ hnd (List.mem_map_of_mem _ hs)

lemma chartRowColValue_eq {scens : List Scenario}
    (hnd : (scens.map scenarioKey).Nodup) {s : Scenario} (hs : s ∈ scens)
    (i : ℕ) :
    chartRowColValue scens i (scenarioKey s)
      = if (i : ℤ) ≤ s.n then
          riskAgentsEdges i (jsClamp s.k 0 (s.n - 1)) s.topology
            (s.autonomy : ℚ) DEFAULTS
        else none := by
  simp only [chartRowColValue, scenarioByKey_eq_some hnd hs]

lemma chartRows_length (safeN safeK : ℤ) (safeTopology : String)
    (safeAutonomy : ℤ) (scens : List Scenario) :
    (chartRows safeN safeK safeTopology safeAutonomy scens).length
      = (maxN safeN scens).toNat := by
  simp [chartRows]

lemma maxN_pos (safeN : ℤ) (scens : List Scenario) : 1 ≤ maxN safeN scens := by
  simp only [maxN]
  omega

lemma chartRows_get (safeN safeK : ℤ) (safeTopology : String)
    (safeAutonomy : ℤ) (scens : List Scenario) (j : ℕ)
    (hj : j < (chartRows safeN safeK safeTopology safeAutonomy scens).length) :
    (chartRows safeN safeK safeTopology safeAutonomy scens).get ⟨j, hj⟩
      = chartRow safeN safeK safeTopology safeAutonomy scens (j + 1) := by
  simp only [chartRows, List.get_eq_getElem, List.getElem_map, List.getElem_range']
  congr 1
  omega

/-- C2: for every primary configuration and compare list (scenario ids, hence
chart keys, being unique per the data model), the generated series has exactly
max(primary n, max scenario n, 1) rows indexed by agents = 1..max; baseline is
always defined, current is defined iff i ≤ primary n, each scenario's column
is defined iff i ≤ that scenario's n, and a defined scenario column is
evaluated with that scenario's k re-clamped to [0, s.n − 1]. -/
theorem chart_rows_shape (safeN safeK : ℤ) (safeTopology : String)
    (safeAutonomy : ℤ) (scens : List Scenario)
    (hnd : (scens.map scenarioKey).Nodup) :
    ((chartRows safeN safeK safeTopology safeAutonomy scens).length : ℤ)
      = maxN safeN scens
    ∧ ∀ j (hj : j < (chartRows safeN safeK safeTopology safeAutonomy scens).length),
      ((chartRows safeN safeK safeTopology safeAutonomy scens).get ⟨j, hj⟩).agents
        = j + 1
      ∧ ((chartRows safeN safeK safeTopology safeAutonomy scens).get ⟨j, hj⟩).baseline
        = riskLinear (j + 1) DEFAULTS.r0
      ∧ (((chartRows safeN safeK safeTopology safeAutonomy scens).get ⟨j, hj⟩).current.isSome
        ↔ (j : ℤ) + 1 ≤ safeN)
      ∧ ∀ s ∈ scens,
        ((Option.join (lookupLast
            ((chartRows safeN safeK safeTopology safeAutonomy scens).get ⟨j, hj⟩).cols
            (scenarioKey s))).isSome ↔ (j : ℤ) + 1 ≤ s.n)
        ∧ ((j : ℤ) + 1 ≤ s.n →
          Option.join (lookupLast
            ((chartRows safeN safeK safeTopology safeAutonomy scens).get ⟨j, hj⟩).cols
            (scenarioKey s))
            = riskAgentsEdges (j + 1) (jsClamp s.k 0 (s.n - 1)) s.topology
              (s.autonomy : ℚ) DEFAULTS) := by
  constructor
  · rw [chartRows_length]
    exact Int.toNat_of_nonneg (by linarith [maxN_pos safeN scens])
  · intro j hj
    rw [chartRows_get]
    have hcast : (((j + 1 : ℕ)) : ℤ) = (j : ℤ) + 1 := by push_cast; ring
    refine ⟨rfl, rfl, ?_, ?_⟩
    · show (if ((j + 1 : ℕ) : ℤ) ≤ safeN then
        riskAgentsEdges (j + 1) safeK safeTopology (safeAutonomy : ℚ) DEFAULTS
        else none).isSome ↔ (j : ℤ) + 1 ≤ safeN
      rw [hcast]
      by_cases hc : (j : ℤ) + 1 ≤ safeN
      · simp [hc, riskAgentsEdges_isSome_of_pos (by omega : 1 ≤ j + 1)]
      · simp [hc]
    · intro s hs
      rw [chartRow_cols_lookup hnd hs]
      show ((chartRowColValue scens (j + 1) (scenarioKey s)).isSome
          ↔ (j : ℤ) + 1 ≤ s.n) ∧ _
      rw [chartRowColValue_eq hnd hs, hcast]
      constructor
      · by_cases hc : (j : ℤ) + 1 ≤ s.n
        · simp [hc, riskAgentsEdges_isSome_of_pos (by omega : 1 ≤ j + 1)]
        · simp [hc]
      · intro hc
        simp [hc]

/-- Witness for `chart_rows_shape`: primary n = 2 with one pinned scenario of
agent count 1. -/
theorem chart_rows_shape_witness :
    (([(⟨"a", "S", 1, 5, 0, "mesh"⟩ : Scenario)].map scenarioKey).Nodup)
    ∧ (((chartRows 2 1 "bounded" 5 [⟨"a", "S", 1, 5, 0, "mesh"⟩]).length : ℤ)
        = maxN 2 [⟨"a", "S", 1, 5, 0, "mesh"⟩]
      ∧ ∀ j (hj : j < (chartRows 2 1 "bounded" 5 [⟨"a", "S", 1, 5, 0, "mesh"⟩]).length),
        ((chartRows 2 1 "bounded" 5 [⟨"a", "S", 1, 5, 0, "mesh"⟩]).get ⟨j, hj⟩).agents
          = j + 1
        ∧ ((chartRows 2 1 "bounded" 5 [⟨"a", "S", 1, 5, 0, "mesh"⟩]).get ⟨j, hj⟩).baseline
          = riskLinear (j + 1) DEFAULTS.r0
        ∧ (((chartRows 2 1 "bounded" 5 [⟨"a", "S", 1, 5, 0, "mesh"⟩]).get ⟨j, hj⟩).current.isSome
          ↔ (j : ℤ) + 1 ≤ 2)
        ∧ ∀ s ∈ [(⟨"a", "S", 1, 5, 0, "mesh"⟩ : Scenario)],
          ((Option.join (lookupLast
              ((chartRows 2 1 "bounded" 5 [⟨"a", "S", 1, 5, 0, "mesh"⟩]).get ⟨j, hj⟩).cols
              (scenarioKey s))).isSome ↔ (j : ℤ) + 1 ≤ s.n)
          ∧ ((j : ℤ) + 1 ≤ s.n →
            Option.join (lookupLast
              ((chartRows 2 1 "bounded" 5 [⟨"a", "S", 1, 5, 0, "mesh"⟩]).get ⟨j, hj⟩).cols
              (scenarioKey s))
              = riskAgentsEdges (j + 1) (jsClamp s.k 0 (s.n - 1)) s.topology
                (s.autonomy : ℚ) DEFAULTS)) :=
  ⟨by decide, chart_rows_shape 2 1 "bounded" 5 [⟨"a", "S", 1, 5, 0, "mesh"⟩] (by decide)⟩

/-- C8: the CSV serializer emits one data line per series row (header plus
domain-length data lines) joined with CRLF; the current-multiple field is
value/baseline when the baseline is positive and the value present, else
empty; and a scenario's connected and multiple fields are empty exactly for
rows beyond that scenario's agent count (an empty field, never a zero). -/
theorem csv_shape (safeN safeK : ℤ) (safeTopology : String) (safeAutonomy : ℤ)
    (scens : List Scenario) (hnd : (scens.map scenarioKey).Nodup) :
    (buildCsv (chartRows safeN safeK safeTopology safeAutonomy scens)
        (scenarioLineKeys scens)).length
      = (chartRows safeN safeK safeTopology safeAutonomy scens).length + 1
    ∧ ((chartRows safeN safeK safeTopology safeAutonomy scens).length : ℤ)
      = maxN safeN scens
    ∧ NL = "\r\n"
    ∧ (∀ j (hj : j < (chartRows safeN safeK safeTopology safeAutonomy scens).length),
      (buildCsv (chartRows safeN safeK safeTopology safeAutonomy scens)
          (scenarioLineKeys scens)).get? (j + 1)
        = some (csvDataRow (scenarioLineKeys scens)
            ((chartRows safeN safeK safeTopology safeAutonomy scens).get ⟨j, hj⟩)))
    ∧ (∀ (keys : List String) (r : ChartRow) (c : ℚ),
      r.current = some c → 0 < r.baseline →
        (csvDataRow keys r).get? 3 = some (Cell.num (c / r.baseline)))
    ∧ (∀ (keys : List String) (r : ChartRow),
      r.current = none → (csvDataRow keys r).get? 3 = some (Cell.str ""))
    ∧ ∀ j (hj : j < (chartRows safeN safeK safeTopology safeAutonomy scens).length),
      ∀ s ∈ scens,
        (¬ ((j : ℤ) + 1 ≤ s.n) →
          scenarioPairCells
            ((chartRows safeN safeK safeTopology safeAutonomy scens).get ⟨j, hj⟩).baseline
            (Option.join (lookupLast
              ((chartRows safeN safeK safeTopology safeAutonomy scens).get ⟨j, hj⟩).cols
              (scenarioKey s)))
          = [Cell.str "", Cell.str ""])
        ∧ (((j : ℤ) + 1 ≤ s.n) → ∃ v : ℚ,
          scenarioPairCells
            ((chartRows safeN safeK safeTopology safeAutonomy scens).get ⟨j, hj⟩).baseline
            (Option.join (lookupLast
              ((chartRows safeN safeK safeTopology safeAutonomy scens).get ⟨j, hj⟩).cols
              (scenarioKey s)))
          = [Cell.num v, Cell.num
              (v / ((chartRows safeN safeK safeTopology safeAutonomy scens).get ⟨j, hj⟩).baseline)]) := by
  refine ⟨?_, ?_, ?_, ?_, ?_, ?_, ?_⟩
  · simp [buildCsv]
  · rw [chartRows_length]
    exact Int.toNat_of_nonneg (by linarith [maxN_pos safeN scens])
  · decide
  · intro j hj
    show (List.cons _ _).get? (j + 1) = _
    rw [List.get?_cons_succ, List.get?_map, List.get?_eq_get hj]
    rfl
  · intro keys r c hc hb
    simp [csvDataRow, hc, hb]
  · intro keys r hc
    simp [csvDataRow, hc]
  · intro j hj s hs
    rw [chartRows_get, chartRow_cols_lookup hnd hs]
    have hbase : (chartRow safeN safeK safeTopology safeAutonomy scens (j + 1)).baseline
        = ((j + 1 : ℕ) : ℚ) * 1 := rfl
    have hbpos : 0 < (chartRow safeN safeK safeTopology safeAutonomy scens (j + 1)).baseline := by
      rw [hbase]
      push_cast
      positivity
    have hcast : (((j + 1 : ℕ)) : ℤ) = (j : ℤ) + 1 := by push_cast; ring
    constructor
    · intro hout
      have : chartRowColValue scens (j + 1) (scenarioKey s) = none := by
        rw [chartRowColValue_eq hnd hs, hcast, if_neg hout]
      simp [this, scenarioPairCells]
    · intro hin
      have hval : chartRowColValue scens (j + 1) (scenarioKey s)
          = riskAgentsEdges (j + 1) (jsClamp s.k 0 (s.n - 1)) s.topology
            (s.autonomy : ℚ) DEFAULTS := by
        rw [chartRowColValue_eq hnd hs, hcast, if_pos hin]
      obtain ⟨v, hv⟩ := Option.isSome_iff_exists.mp
        (riskAgentsEdges_isSome_of_pos (by omega : 1 ≤ j + 1)
          (jsClamp s.k 0 (s.n - 1)) s.topology (s.autonomy : ℚ) DEFAULTS)
      refine ⟨v, ?_⟩
      rw [hval, hv]
      simp [scenarioPairCells, hbpos]

/-- Witness for `csv_shape`: primary n = 2 with one pinned scenario. -/
theorem csv_shape_witness :
    (([(⟨"a", "S", 1, 5, 0, "mesh"⟩ : Scenario)].map scenarioKey).Nodup)
    ∧ (buildCsv (chartRows 2 1 "bounded" 5 [⟨"a", "S", 1, 5, 0, "mesh"⟩])
        (scenarioLineKeys [⟨"a", "S", 1, 5, 0, "mesh"⟩])).length
      = (chartRows 2 1 "bounded" 5 [⟨"a", "S", 1, 5, 0, "mesh"⟩]).length + 1 :=
  ⟨by decide, (csv_shape 2 1 "bounded" 5 [⟨"a", "S", 1, 5, 0, "mesh"⟩] (by decide)).1⟩

/-- C7: pinning onto a full compare list of 8 leaves exactly the same 8
entries (truncate-to-first-8 after append drops the newly appended entry, not
the oldest); saving onto a full saved list of 20 leaves exactly 20 entries,
newest first, with the oldest entry dropped. -/
theorem compare_and_saved_caps (prev : List Scenario) (fresh : String)
    (sN sA sK : ℤ) (sT : String) (hprev : prev.length = 8)
    (saved : List Scenario) (fresh2 : String) (s : Scenario)
    (hsaved : saved.length = 20) :
    addScenario prev fresh sN sA sK sT = prev
    ∧ (addScenario prev fresh sN sA sK sT).length = 8
    ∧ (saveScenario saved fresh2 s).length = 20
    ∧ saveScenario saved fresh2 s
      = (⟨fresh2, jsStrOr s.name "Saved", s.n, s.autonomy, s.k, s.topology⟩ : Scenario)
        :: saved.dropLast := by
  have h1 : addScenario prev fresh sN sA sK sT = prev := by
    unfold addScenario
    rw [← hprev, List.take_left]
  have h2 : saveScenario saved fresh2 s
      = (⟨fresh2, jsStrOr s.name "Saved", s.n, s.autonomy, s.k, s.topology⟩ : Scenario)
        :: saved.dropLast := by
    unfold saveScenario
    rw [List.take_cons_succ, List.dropLast_eq_take, hsaved]
  refine ⟨h1, ?_, ?_, h2⟩
  · rw [h1, hprev]
  · rw [h2]
    simp [List.dropLast_eq_take, hsaved]

/-- Witness for `compare_and_saved_caps` on concrete full lists. -/
theorem compare_and_saved_caps_witness :
    ((List.replicate 8 (⟨"i", "N", 1, 1, 0, "bounded"⟩ : Scenario)).length = 8
      ∧ (List.replicate 20 (⟨"i", "N", 1, 1, 0, "bounded"⟩ : Scenario)).length = 20)
    ∧ (addScenario (List.replicate 8 ⟨"i", "N", 1, 1, 0, "bounded"⟩) "f" 30 5 3 "bounded"
        = List.replicate 8 ⟨"i", "N", 1, 1, 0, "bounded"⟩
      ∧ (addScenario (List.replicate 8 ⟨"i", "N", 1, 1, 0, "bounded"⟩) "f" 30 5 3 "bounded").length = 8
      ∧ (saveScenario (List.replicate 20 ⟨"i", "N", 1, 1, 0, "bounded"⟩) "g"
          ⟨"x", "Mine", 4, 2, 1, "hub"⟩).length = 20
      ∧ saveScenario (List.replicate 20 ⟨"i", "N", 1, 1, 0, "bounded"⟩) "g"
          ⟨"x", "Mine", 4, 2, 1, "hub"⟩
        = (⟨"g", jsStrOr "Mine" "Saved", 4, 2, 1, "hub"⟩ : Scenario)
          :: (List.replicate 20 (⟨"i", "N", 1, 1, 0, "bounded"⟩ : Scenario)).dropLast) :=
  ⟨⟨by decide, by decide⟩,
    compare_and_saved_caps (List.replicate 8 ⟨"i", "N", 1, 1, 0, "bounded"⟩) "f"
      30 5 3 "bounded" (by decide)
      (List.replicate 20 ⟨"i", "N", 1, 1, 0, "bounded"⟩) "g"
      ⟨"x", "Mine", 4, 2, 1, "hub"⟩ (by decide)⟩

/-! ### Helper lemmas about the share codec -/

set_option maxRecDepth 40000 in
lemma parseIntStr_toString_small :
    ∀ m ∈ Finset.Icc (0 : ℤ) 200, parseIntStr (toString m) = some m := by decide

lemma safeInt_toString {m : ℤ} (h0 : 0 ≤ m) (h200 : m ≤ 200) (fb : ℤ) :
    safeInt (toString m) fb = m := by
  have h := parseIntStr_toString_small m (Finset.mem_Icc.mpr ⟨h0, h200⟩)
  simp [safeInt, h]

lemma isTopologyValue_ne_empty {t : String} (h : isTopologyValue t = true) :
    t ≠ "" := by
  rintro rfl
  exact absurd h (by decide)

lemma scenarioToQuery_eq_self (s : Scenario) : scenarioToQuery s = s := rfl

lemma decodeScenario_eq_self (fresh : ℕ → String) (i : ℕ) {s : Scenario}
    (hid : s.id ≠ "") (hname : s.name ≠ "")
    (hn1 : 1 ≤ s.n) (hn2 : s.n ≤ 200)
    (ha1 : 1 ≤ s.autonomy) (ha2 : s.autonomy ≤ 10)
    (hk1 : 0 ≤ s.k) (hk2 : s.k ≤ s.n - 1)
    (ht : isTopologyValue s.topology = true) :
    decodeScenario fresh i s = s := by
  unfold decodeScenario
  rw [jsStrOr, if_neg hid, jsStrOr, if_neg hname,
    safeInt_toString (by omega) (by omega),
    safeInt_toString (by omega) (by omega),
    safeInt_toString (by omega) (by omega),
    jsClamp_eq_self hn1 hn2, jsClamp_eq_self ha1 ha2,
    jsClamp_eq_self hk1 (by omega), if_pos ht]

lemma reclampScenario_eq_self {s : Scenario} (hk1 : 0 ≤ s.k)
    (hk2 : s.k ≤ s.n - 1) : reclampScenario s = s := by
  unfold reclampScenario
  rw [jsClamp_eq_self hk1 hk2]

lemma mapIdx_eq_self {α : Type} (f : ℕ → α → α) (l : List α)
    (h : ∀ i a, a ∈ l → f i a = a) : l.mapIdx f = l := by
  rw [List.mapIdx_eq_enum_map]
  have hcg : ∀ p ∈ l.enum, Function.uncurry f p = Prod.snd p := by
    rintro ⟨i, a⟩ hp
    obtain ⟨hlt, ha⟩ := List.mem_enum hp
    exact h i a (by rw [ha]; exact List.getElem_mem hlt)
  rw [List.map_congr_left hcg, List.enum_map_snd]

/-- C6 as stated fails: a fully clamped compare scenario whose display name is
the empty string (a falsy JS value) does not survive the round trip — decode
replaces the empty name with "Scenario". -/
theorem share_codec_round_trip_fails_on_empty_name :
    readInitialStateFromUrl
        (buildShareUrl 30 5 3 "bounded" [⟨"a1", "", 30, 5, 3, "bounded"⟩])
        (fun _ => "fresh")
      ≠ (⟨30, 5, 3, "bounded", [⟨"a1", "", 30, 5, 3, "bounded"⟩]⟩ : InitialState) := by
  decide

/-- C6 amended: decoding the encoded share string reproduces the primary
configuration and the compare list exactly, for every clamped primary
configuration and every compare list of at most 8 clamped scenarios whose ids
and names are non-empty (an empty id or name is falsy in JS and is replaced
by a default on decode). -/
theorem share_codec_round_trip (n a k : ℤ) (t : String) (scens : List Scenario)
    (fresh : ℕ → String)
    (hn1 : 1 ≤ n) (hn2 : n ≤ 200) (ha1 : 1 ≤ a) (ha2 : a ≤ 10)
    (hk1 : 0 ≤ k) (hk2 : k ≤ n - 1) (ht : isTopologyValue t = true)
    (hlen : scens.length ≤ 8)
    (hs : ∀ s ∈ scens, s.id ≠ "" ∧ s.name ≠ "" ∧ 1 ≤ s.n ∧ s.n ≤ 200
      ∧ 1 ≤ s.autonomy ∧ s.autonomy ≤ 10 ∧ 0 ≤ s.k ∧ s.k ≤ s.n - 1
      ∧ isTopologyValue s.topology = true) :
    readInitialStateFromUrl (buildShareUrl n a k t scens) fresh
      = ⟨n, a, k, t, scens⟩ := by
  have hdn : jsClamp (safeInt (toString n) 30) 1 200 = n := by
    rw [safeInt_toString (by omega) (by omega)]
    exact jsClamp_eq_self hn1 hn2
  have hda : jsClamp (safeInt (toString a) 5) 1 10 = a := by
    rw [safeInt_toString (by omega) (by omega)]
    exact jsClamp_eq_self ha1 ha2
  have hdk : jsClamp (safeInt (toString k) 3) 0 (n - 1) = k := by
    rw [safeInt_toString (by omega) (by omega)]
    exact jsClamp_eq_self hk1 hk2
  have hdt0 : jsStrOr t "bounded" = t := by
    rw [jsStrOr, if_neg (isTopologyValue_ne_empty ht)]
  have hscen :
      ((((if scens.length ≠ 0 then some (scens.map scenarioToQuery) else none :
          Option (List Scenario)).map
        (fun parsed => (parsed.mapIdx (decodeScenario fresh)).take 8)).getD []).map
        reclampScenario) = scens := by
    rcases eq_or_ne scens [] with rfl | hne
    · simp
    · have hq : scens.map scenarioToQuery = scens := by
        rw [List.map_congr_left (fun s _ => scenarioToQuery_eq_self s)]
        simp
      have hdecode : scens.mapIdx (decodeScenario fresh) = scens := by
        apply mapIdx_eq_self
        intro i s hmem
        obtain ⟨h1, h2, h3, h4, h5, h6, h7, h8, h9⟩ := hs s hmem
        exact decodeScenario_eq_self fresh i h1 h2 h3 h4 h5 h6 h7 h8 h9
      have hreclamp : scens.map reclampScenario = scens := by
        have hcg : ∀ s ∈ scens, reclampScenario s = s := by
          intro s hmem
          obtain ⟨h1, h2, h3, h4, h5, h6, h7, h8, h9⟩ := hs s hmem
          exact reclampScenario_eq_self h7 h8
        rw [List.map_congr_left hcg]
        simp
      rw [if_pos (by simpa [List.length_eq_zero] using hne), hq, Option.map_some',
        Option.getD_some, hdecode, List.take_of_length_le hlen, hreclamp]
  simp only [readInitialStateFromUrl, buildShareUrl]
  rw [hdn, hda, hdk, hdt0, if_pos ht, hscen]

/-- Witness for `share_codec_round_trip` at n = 30, a = 5, k = 3, bounded
topology, one clamped scenario with non-empty id and name. -/
theorem share_codec_round_trip_witness :
    readInitialStateFromUrl
        (buildShareUrl 30 5 3 "bounded" [⟨"a1", "Scenario 1", 12, 4, 2, "hub"⟩])
        (fun _ => "fresh")
      = (⟨30, 5, 3, "bounded", [⟨"a1", "Scenario 1", 12, 4, 2, "hub"⟩]⟩ : InitialState) :=
  share_codec_round_trip 30 5 3 "bounded" [⟨"a1", "Scenario 1", 12, 4, 2, "hub"⟩]
    (fun _ => "fresh") (by norm_num) (by norm_num) (by norm_num) (by norm_num)
    (by norm_num) (by norm_num) (by decide) (by norm_num)
    (by
      intro s hmem
      simp only [List.mem_singleton] at hmem
      subst hmem
      refine ⟨by decide, by decide, by norm_num, by norm_num, by norm_num,
        by norm_num, by norm_num, by norm_num, by decide⟩)
